import Mathlib

/-!
# MobySpace — a shallow embedding of `plugins/mobyrave/mobyspace.h`

The header is a port in progress of the Bullet adapter to the Moby engine.  Large parts
of it are enclosed in `/* ... */` and are therefore not part of the compiled program:

* lines 224–448: the second half of `InitKinBody` (link proxies appended to `vlinks`,
  the whole joint loop, the change-callback registration, the first synchronization
  pass and the `return pinfo;` statement);
* lines 486–492: the body of `GetJoint`;
* lines 503–505: the body of `GetTransform`;
* lines 510–513: the body of `GetRavelinTransform`;
* lines 529–541: the body of `_Synchronize`;
* lines 544–564: `GeometryChangedCallback`.

The definitions in the first part of this file follow the compiled text only.  The
disabled blocks that the specification describes are transcribed separately, under names
ending in `_disabled`, so that the two can be compared.

Conventions.
* `dReal`/`btScalar` values are embedded as rationals (exact arithmetic, no rounding).
* Shared pointers to bodies are embedded as identities (`BodyId`); a null pointer is `none`.
* `BOOST_ASSERT` is taken as enabled: a failed assertion aborts (`Failure.assertionFailed`).
* A value-returning C++ function whose control reaches the closing brace without a
  `return` statement hands no value back (`Failure.missingReturn`).
-/

namespace MobySpace

/-! ## Data model -/

/-- OpenRAVE `Vector`: four `dReal` components. A quaternion is stored with the scalar
part first, that is `x` holds w, `y` holds x, `z` holds y and `w` holds z. -/
structure Vector where
  x : ℚ
  y : ℚ
  z : ℚ
  w : ℚ
deriving DecidableEq, Repr

/-- OpenRAVE `Transform`: rotation quaternion and translation. -/
structure Transform where
  rot : Vector
  trans : Vector
deriving DecidableEq, Repr

/-- The default-constructed `Transform()`: identity rotation, zero translation. -/
def Transform.identity : Transform := ⟨⟨1, 0, 0, 0⟩, ⟨0, 0, 0, 0⟩⟩

/-- Squared length of all four components, `lengthsqr4`. -/
def Vector.lengthsqr4 (v : Vector) : ℚ := v.x * v.x + v.y * v.y + v.z * v.z + v.w * v.w

/-- Engine-side transform.  The compiled signatures name it `Ravelin::MatrixNd`; the
disabled bodies build it as `btTransform(btQuaternion(x, y, z, w), origin)`, which is the
layout kept here: rotation in engine order (x, y, z, w), then the origin. -/
structure MatrixNd where
  qx : ℚ
  qy : ℚ
  qz : ℚ
  qw : ℚ
  ox : ℚ
  oy : ℚ
  oz : ℚ
deriving DecidableEq, Repr

/-- Ways in which a call can end without a result. -/
inductive Failure where
  /-- a `BOOST_ASSERT` did not hold (the specification's ConsistencyViolation) -/
  | assertionFailed
  /-- an `OPENRAVE_ASSERT_OP` did not hold (the specification's PreconditionViolation) -/
  | preconditionViolation
  /-- `std::vector::at` with an index past the end -/
  | outOfRange
  /-- a null shared pointer was dereferenced -/
  | nullPointer
  /-- control reached the end of a value-returning function without a `return` -/
  | missingReturn
deriving DecidableEq, Repr

deriving instance DecidableEq for Except

abbrev BodyId := Nat
abbrev RigidBodyId := Nat
abbrev JointId := Nat
abbrev WorldId := Nat

/-- Identity of a `KinBody::Link`: its parent body and its index in the parent. -/
structure LinkRef where
  parent : BodyId
  index : Nat
deriving DecidableEq, Repr

/-- A `KinBody::Link` as far as the adapter reads it. -/
structure Link where
  parent : BodyId
  index : Nat
  transform : Transform := Transform.identity
  localMassFrame : Transform := Transform.identity
  mass : ℚ := 0
  isStatic : Bool := false
  localAABBExtents : Vector := ⟨0, 0, 0, 0⟩
deriving DecidableEq, Repr

def Link.ref (l : Link) : LinkRef := ⟨l.parent, l.index⟩

/-- The joint kinds of `KinBody::JointType`; `other` stands for the `default:` branch. -/
inductive JointType where
  | JointHinge
  | JointSlider
  | JointSpherical
  | JointUniversal
  | JointHinge2
  | other
deriving DecidableEq, Repr

/-- A `KinBody::Joint` as far as the adapter reads it (axis 0 only). -/
structure Joint where
  id : JointId
  parent : BodyId
  type : JointType
  firstAttached : Option Nat
  secondAttached : Option Nat
  lower : ℚ := 0
  upper : ℚ := 0
  circular : Bool := false
  value : ℚ := 0
deriving DecidableEq, Repr

/-- A `KinBody` as far as the adapter reads it. `adjacentLinks` is `GetAdjacentLinks()`,
a set of packed index pairs. -/
structure KinBody where
  id : BodyId
  updateStamp : Int
  links : List Link := []
  joints : List Joint := []
  passiveJoints : List Joint := []
  adjacentLinks : List Nat := []
  transform : Transform := Transform.identity
  dofValues : List ℚ := []
deriving DecidableEq, Repr

/-- `KinBodyInfo::LINK`, a subclass of `Moby::RigidBody` with three members of its own.
`pose` stands for the inherited rigid-body state that a transform push would write. -/
structure LINK where
  _body : Option RigidBodyId := none
  plink : Option LinkRef := none
  tlocal : Transform := Transform.identity
  pose : Option MatrixNd := none
deriving DecidableEq, Repr

/-- `KinBodyInfo`: the per-body proxy record.  `_world` is the private pointer to the
simulator that the constructor stores (lines 74, 98); it names the simulator by
identity.  The private `_bPhysics` is never read and is left out. -/
structure KinBodyInfo where
  pbody : Option BodyId := none
  nLastStamp : Int := 0
  vlinks : List LINK := []
  _geometrycallback : Option Nat := none
  _mobyspace : Bool := false
  _world : Option WorldId := none
deriving DecidableEq, Repr

/-- A physics constraint as the disabled joint loop would register it. -/
structure Constraint where
  joint : JointId
  kind : JointType
  limits : Option (ℚ × ℚ) := none
  ignoreCollision : Bool := false
deriving DecidableEq, Repr

/-- The physics world: registered dynamic bodies and registered constraints. -/
structure World where
  dynamicBodies : List RigidBodyId := []
  constraints : List Constraint := []
deriving DecidableEq, Repr

/-- `MobySpace` together with the collaborators it reaches through its members:
`bodies` is what `_penv->GetBodies` yields, `GetInfo` is the lookup function given to the
constructor, tabulated by the queried body.  `worlds` holds the simulators that exist,
by identity; `_world` is the space's pointer to one of them, or null.  `syncEntered` and
`callbackCount` are observation state: the records on which `_Synchronize` was entered,
in order, and the number of times the synchronization callback ran. -/
structure Space where
  bodies : List KinBody := []
  GetInfo : List (BodyId × KinBodyInfo) := []
  worlds : List (WorldId × World) := []
  _world : Option WorldId := none
  _synccallback : Bool := false
  _bPhysics : Bool := false
  syncEntered : List BodyId := []
  callbackCount : Nat := 0
deriving DecidableEq, Repr

/-! ## The compiled operations -/

/-- `KinBodyInfo(world, bPhysics)` (lines 74–76): the constructor stores the world
pointer it is given and sets `nLastStamp = 0`; the other pointer members start null and
`vlinks` starts empty. -/
def KinBodyInfo.new (world : Option WorldId) : KinBodyInfo :=
  { nLastStamp := 0, _world := world }

/-- Modelled from the spec: `Moby::Simulator::remove_dynamic_body` (engine code, not
part of this header) deregisters the given body from the world; a null handle
deregisters nothing. -/
def World.remove_dynamic_body (w : World) (b : Option RigidBodyId) : World :=
  match b with
  | none => w
  | some id => { w with dynamicBodies := w.dynamicBodies.filter (fun r => r != id) }

/-- `KinBodyInfo::Reset` (lines 83–89): every link proxy's `_body` is removed from the
world.  Nothing else happens: `vlinks` itself keeps all of its entries.  `world` is the
simulator that the record's own `_world` points to, `none` for a null pointer; the
result is that simulator after the loop. -/
def KinBodyInfo.Reset (info : KinBodyInfo) (world : Option World) : Except Failure (Option World) :=
  info.vlinks.foldlM
    (fun w link => match w with
      | none => Except.error Failure.nullPointer
      | some w => Except.ok (some (w.remove_dynamic_body link._body)))
    world

/-- Writing through a world pointer: the entry of the simulator `id` is replaced. -/
def setWorld (id : WorldId) (w : World) : List (WorldId × World) → List (WorldId × World)
  | [] => []
  | (k, v) :: rest => if id == k then (k, w) :: rest else (k, v) :: setWorld id w rest

/-- `pinfo->Reset()` among the simulators that exist: the loop of `Reset` runs on the
simulator that the record's own `_world` points to, and on no other. -/
def KinBodyInfo.ResetIn (info : KinBodyInfo) (worlds : List (WorldId × World)) :
    Except Failure (List (WorldId × World)) :=
  match info._world with
  | none => do
    let _ ← info.Reset none
    pure worlds
  | some id => do
    let after ← info.Reset (worlds.lookup id)
    match after with
    | some w => pure (setWorld id w worlds)
    | none => pure worlds

/-- `InitEnvironment` (lines 113–121): the space takes over the pointer it is given. -/
def InitEnvironment (s : Space) (world : WorldId) : Space × Bool :=
  ({ s with _world := some world }, true)

/-- `DestroyEnvironment` (lines 123–126). -/
def DestroyEnvironment (s : Space) : Space := { s with _world := none }

/-- `IsInitialized` (lines 520–522). -/
def IsInitialized (s : Space) : Bool := s._world.isSome

/-- `SetSynchronizationCallback` (lines 495–497); `true` stands for a non-empty function. -/
def SetSynchronizationCallback (s : Space) (synccallback : Bool) : Space :=
  { s with _synccallback := synccallback }

/-- `GetTransform` (lines 501–506): the body holds nothing but a comment, so the
function ends without a `return`. -/
def GetTransform (_t : MatrixNd) : Except Failure Transform :=
  Except.error Failure.missingReturn

/-- `GetRavelinTransform` (lines 508–514): the body holds nothing but a comment, so
no norm check is made and the function ends without a `return`. -/
def GetRavelinTransform (_t : Transform) : Except Failure MatrixNd :=
  Except.error Failure.missingReturn

/-- `GetRavelinVector` (lines 516–519): the first three components. -/
def GetRavelinVector (v : Vector) : ℚ × ℚ × ℚ := (v.x, v.y, v.z)

/-- `_Synchronize` (lines 527–542).  The body holds nothing but a comment: the record,
its link proxies and the callback are not touched.  The record is named by the body
under which `GetInfo` returned it; entering the function is logged in `syncEntered`. -/
def _Synchronize (s : Space) (pinfo : BodyId) : Except Failure Space :=
  Except.ok { s with syncEntered := s.syncEntered ++ [pinfo] }

/-- `Synchronize(KinBodyConstPtr pbody)` (lines 464–471). -/
def SynchronizeBody (s : Space) (pbody : KinBody) : Except Failure Space :=
  match s.GetInfo.lookup pbody.id with
  | none => Except.error Failure.nullPointer
  | some pinfo =>
    if pinfo.pbody ≠ some pbody.id then Except.error Failure.assertionFailed
    else if pinfo.nLastStamp ≠ pbody.updateStamp then _Synchronize s pbody.id
    else Except.ok s

/-- `Synchronize()` (lines 451–462): the same step for every body of the environment,
in the order of `GetBodies`. -/
def Synchronize (s : Space) : Except Failure Space :=
  s.bodies.foldlM SynchronizeBody s

/-- `GetLinkBody` (lines 474–479).  The returned `Moby::RigidBodyPtr` is the `LINK`
object itself, seen through its base class. -/
def GetLinkBody (s : Space) (plink : Link) : Except Failure LINK :=
  match s.GetInfo.lookup plink.parent with
  | none => Except.error Failure.nullPointer
  | some pinfo =>
    if pinfo.pbody ≠ some plink.parent then Except.error Failure.assertionFailed
    else match pinfo.vlinks[plink.index]? with
      | some link => Except.ok link
      | none => Except.error Failure.outOfRange

/-- `GetJoint` (lines 482–493): after the identity assertion the body holds nothing
but a comment, so no constraint handle is handed back. -/
def GetJoint (s : Space) (pjoint : Joint) : Except Failure Constraint :=
  match s.GetInfo.lookup pjoint.parent with
  | none => Except.error Failure.nullPointer
  | some pinfo =>
    if pinfo.pbody ≠ some pjoint.parent then Except.error Failure.assertionFailed
    else Except.error Failure.missingReturn

/-- What a run of `InitKinBody` leaves behind.  `zeroPosed` is the body as it stood while
the link loop ran; `body` is the body once the state saver has gone out of scope;
`pinfo` is the record the function worked on, as it stands when control reaches the
closing brace; `world` is the simulator the space points to at that point, and `worlds`
are all simulators at that point. -/
structure BuildEffects where
  zeroPosed : KinBody
  body : KinBody
  pinfo : KinBodyInfo
  world : Option World
  worlds : List (WorldId × World)
deriving DecidableEq, Repr

/-- Modelled from the spec: `KinBody::SetTransform(Transform())` followed by
`SetDOFValues(vzeros)` with `vzeros` of length `GetDOF()` (host code, not part of this
header) forces the identity transform and all-zero joint values. -/
def KinBody.zeroPose (b : KinBody) : KinBody :=
  { b with transform := Transform.identity, dofValues := b.dofValues.map (fun _ => 0) }

/-- Modelled from the spec: the destructor of `KinBody::KinBodyStateSaver` (host code,
not part of this header) puts back the pose and joint values saved at construction. -/
def KinBodyStateSaver.restore (saved current : KinBody) : KinBody :=
  { current with transform := saved.transform, dofValues := saved.dofValues }

/-- `Moby::BoxPrimitive` as the link loop builds it: three side lengths and a mass. -/
structure BoxPrimitive where
  xlen : ℚ
  ylen : ℚ
  zlen : ℚ
  mass : ℚ
deriving DecidableEq, Repr

/-- `Moby::RigidBody` as the link loop builds it: the primitive its inertia and
visualization are taken from, and the enabled flag. -/
structure RigidBody where
  primitive : Option BoxPrimitive := none
  enabled : Bool := false
deriving DecidableEq, Repr

/-- One iteration of the compiled link loop (lines 147–222).  A `LINK`, the bounding
box, a box primitive of twice the extents carrying the link's mass, and a rigid body
`child` are created; all four are local to the iteration and none is stored in the
record or added to the world, so the record comes out as it went in. -/
def InitKinBody.linkStep (pinfo : KinBodyInfo) (itlink : Link) : KinBodyInfo :=
  let _link : LINK := {}
  let bb := itlink.localAABBExtents
  let prim : BoxPrimitive := ⟨bb.x * 2, bb.y * 2, bb.z * 2, itlink.mass⟩
  let _child : RigidBody := { primitive := some prim, enabled := true }
  pinfo

/-- The compiled part of `InitKinBody` (lines 129–222), statement by statement:
the state saver and the zero pose (131–134); allocation of a record when none is
passed (136–138); `Reset` (139); `pbody` and `_mobyspace` (140–141); `reserve`, which
changes no size (142); the articulated body `mobody` (145), which is not used again;
the link loop (147–222).  The compiled text of the function ends there.  A new record
gets the space's `_world` (137); `Reset` works on the world of the record it is called
on, which for a record that is passed in is the one stored when that record was made.
A record that was allocated here is released again when the function is left, its
`Reset` finding no link proxy to remove. -/
def InitKinBody.effects (s : Space) (pbody : KinBody) (pinfo : Option KinBodyInfo) :
    Except Failure BuildEffects := do
  let zeroed := pbody.zeroPose
  let info := match pinfo with
    | some existing => existing
    | none => KinBodyInfo.new s._world
  let worlds ← info.ResetIn s.worlds
  let info := { info with pbody := some pbody.id, _mobyspace := true }
  let info := pbody.links.foldl InitKinBody.linkStep info
  pure { zeroPosed := zeroed, body := KinBodyStateSaver.restore pbody zeroed,
         pinfo := info, world := s._world.bind (fun id => worlds.lookup id),
         worlds := worlds }

/-- `InitKinBody` as a value-returning function: the effects above take place, and no
`return` statement follows them, so no record is handed back to the caller. -/
def InitKinBody (s : Space) (pbody : KinBody) (pinfo : Option KinBodyInfo) :
    Except Failure KinBodyInfo := do
  let _ ← InitKinBody.effects s pbody pinfo
  Except.error Failure.missingReturn

/-- `~KinBodyInfo` (lines 79–81): the destructor calls `Reset` and nothing else. -/
def KinBodyInfo.destroy (info : KinBodyInfo) (world : Option World) :
    Except Failure (Option World) :=
  info.Reset world

/-- How a run of `InitKinBody` leaves the body.  `outcome` is the way the guarded scope
ended (lines 136–222: its effects, or the failure that cut it short); `zeroPosed` is
the body inside the scope, after lines 132–134; `body` is the body after the state
saver declared at line 131 has been destroyed. -/
structure BuildExit where
  outcome : Except Failure BuildEffects
  zeroPosed : KinBody
  body : KinBody
deriving DecidableEq, Repr

/-- `InitKinBody` seen from the body (lines 131–134 and the closing brace).  The state
saver is constructed from the body as passed in, the body is forced to the zero pose,
the rest of the function runs, and on leaving the scope — at the closing brace or by a
failure that cuts the scope short — the saver is destroyed; what its destructor does
is `KinBodyStateSaver.restore`. -/
def InitKinBody.guarded (s : Space) (pbody : KinBody) (pinfo : Option KinBodyInfo) :
    BuildExit :=
  let saver := pbody
  let zeroed := pbody.zeroPose
  { outcome := InitKinBody.effects s pbody pinfo
    zeroPosed := zeroed
    body := KinBodyStateSaver.restore saver zeroed }

/-- The link a `LinkPtr` points to: the link with that index in the body with that
identity, among the bodies of the environment. -/
def Space.findLink (s : Space) (ref : LinkRef) : Option Link :=
  match s.bodies.find? (fun b => b.id == ref.parent) with
  | some b => b.links.find? (fun l => l.index == ref.index)
  | none => none

/-- Modelled from the spec: `KinBody::Link::SetTransform` (host code, not part of this
header) sets the world transform of the link it is called on, and of no other link. -/
def Space.setLinkTransform (s : Space) (ref : LinkRef) (t : Transform) : Space :=
  { s with bodies := s.bodies.map (fun b =>
      if b.id == ref.parent then
        { b with links := b.links.map (fun l =>
            if l.index == ref.index then { l with transform := t } else l) }
      else b) }

/-- `LINK::GetWorldTransform` (lines 59–62), a `const` member:
`comWorldTrans = GetRavelinTransform(plink->GetTransform()*tlocal)`.  `compose` is the
host's `Transform` product.  The result pairs what is written to `comWorldTrans` with
the state after the call. -/
def LINK.GetWorldTransform (compose : Transform → Transform → Transform) (self : LINK)
    (s : Space) : Except Failure MatrixNd × Space :=
  let comWorldTrans := match self.plink with
    | none => Except.error Failure.nullPointer
    | some ref => match s.findLink ref with
      | none => Except.error Failure.nullPointer
      | some link => GetRavelinTransform (compose link.transform self.tlocal)
  (comWorldTrans, s)

/-- `LINK::SetWorldTransform` (lines 64–67):
`plink->SetTransform(GetTransform(comWorldTrans)*tlocal.inverse())`.  `compose` and
`inverse` are the host's `Transform` product and inverse.  The argument is evaluated
first; the call of `GetTransform` in it is the compiled one. -/
def LINK.SetWorldTransform (compose : Transform → Transform → Transform)
    (inverse : Transform → Transform) (self : LINK) (s : Space) (comWorldTrans : MatrixNd) :
    Except Failure Space := do
  let host ← GetTransform comWorldTrans
  match self.plink with
  | none => Except.error Failure.nullPointer
  | some ref => pure (s.setLinkTransform ref (compose host (inverse self.tlocal)))

/-! ## The disabled blocks, transcribed

None of the following is compiled.  Each definition transcribes statements that stand
inside a comment of the header; the helpers they call that the header does not define
(`GetBtVector`, the Bullet classes, `Transform` multiplication) are taken as stated in
each doc comment or as parameters. -/

/-- The statement inside the comment of `GetTransform` (line 504): the engine
quaternion (x, y, z, w) goes to the host layout (w, x, y, z); the origin is copied into
a three-argument `Vector`, whose fourth component is 0. -/
def GetTransform_disabled (t : MatrixNd) : Transform :=
  ⟨⟨t.qw, t.qx, t.qy, t.qz⟩, ⟨t.ox, t.oy, t.oz, 0⟩⟩

/-- The statements inside the comment of `GetRavelinTransform` (lines 511–512):
`OPENRAVE_ASSERT_OP(RaveFabs(t.rot.lengthsqr4()-1),<=,0.01)`, then
`btQuaternion(t.rot.y, t.rot.z, t.rot.w, t.rot.x)` with the first three components of
`t.trans`. -/
def GetRavelinTransform_disabled (t : Transform) : Except Failure MatrixNd :=
  if |t.rot.lengthsqr4 - 1| ≤ 1 / 100 then
    Except.ok ⟨t.rot.y, t.rot.z, t.rot.w, t.rot.x, t.trans.x, t.trans.y, t.trans.z⟩
  else Except.error Failure.preconditionViolation

/-- The loop inside the comment of `_Synchronize` (lines 535–537): link proxy `i`
receives the engine form of `vtrans[i] * vlinks[i]->tlocal`.  `compose` is the host's
`Transform` product. -/
def pushTransforms_disabled (compose : Transform → Transform → Transform) :
    List Transform → List LINK → Except Failure (List LINK)
  | t :: ts, l :: ls => do
    let m ← GetRavelinTransform_disabled (compose t l.tlocal)
    let rest ← pushTransforms_disabled compose ts ls
    pure ({ l with pose := some m } :: rest)
  | _, _ => pure []

/-- The statements inside the comment of `_Synchronize` (lines 530–540), for a record
and the body its `pbody` points to: the link transforms are read, `nLastStamp` is set
to the body's stamp, the sizes are asserted equal, the transforms are pushed, and the
callback, when one is registered, is invoked.  The result is the updated record and
the number of callback invocations. -/
def _Synchronize_disabled (compose : Transform → Transform → Transform)
    (synccallback : Bool) (pinfo : KinBodyInfo) (pbody : KinBody) :
    Except Failure (KinBodyInfo × Nat) := do
  let vtrans := pbody.links.map (fun l => l.transform)
  let pinfo := { pinfo with nLastStamp := pbody.updateStamp }
  if vtrans.length ≠ pinfo.vlinks.length then
    Except.error Failure.assertionFailed
  else
    let vlinks ← pushTransforms_disabled compose vtrans pinfo.vlinks
    pure ({ pinfo with vlinks := vlinks }, if synccallback then 1 else 0)

/-- Writing through a record pointer: the first entry that `GetInfo` finds for `key`
is replaced. -/
def setRecord (key : BodyId) (pinfo : KinBodyInfo) :
    List (BodyId × KinBodyInfo) → List (BodyId × KinBodyInfo)
  | [] => []
  | (k, r) :: rest =>
    if key == k then (k, pinfo) :: rest else (k, r) :: setRecord key pinfo rest

/-- `Synchronize(KinBodyConstPtr)` (lines 464–471) as it would run if the disabled body
of `_Synchronize` were compiled: the same assertion and stale check, then the disabled
statements, whose result is written back to the record. -/
def SynchronizeBody_restored (compose : Transform → Transform → Transform) (s : Space)
    (pbody : KinBody) : Except Failure Space :=
  match s.GetInfo.lookup pbody.id with
  | none => Except.error Failure.nullPointer
  | some pinfo =>
    if pinfo.pbody ≠ some pbody.id then Except.error Failure.assertionFailed
    else if pinfo.nLastStamp ≠ pbody.updateStamp then do
      let (pinfo, n) ← _Synchronize_disabled compose s._synccallback pinfo pbody
      pure { s with
        GetInfo := setRecord pbody.id pinfo s.GetInfo
        syncEntered := s.syncEntered ++ [pbody.id]
        callbackCount := s.callbackCount + n }
    else Except.ok s

/-- The record set-up and link loop inside the comment of `InitKinBody` (lines
229–232, 234–235, 311–312, 358), as far as the members of the compiled `LINK` go: after
`Reset`, which removes nothing from `vlinks`, one proxy per link is appended with
`plink` and `tlocal` set. -/
def InitKinBody_disabled_links (pbody : KinBody) (pinfo : KinBodyInfo) : KinBodyInfo :=
  { pinfo with
    pbody := some pbody.id
    _mobyspace := true
    vlinks := pinfo.vlinks ++ pbody.links.map
      (fun l => { plink := some l.ref, tlocal := l.localMassFrame }) }

/-- The packed index pair `minindex|(maxindex<<16)` (lines 435–438), on indices that
are small enough for the shift not to overflow an `int`. -/
def adjacencyKey (i0 i1 : Nat) : Nat := min i0 i1 ||| (max i0 i1 <<< 16)

/-- The flag inside the comment at line 438, as written:
`GetAdjacentLinks().find(key) != end() || plink0->IsRigidlyAttached(plink0)`.
`IsRigidlyAttached a b` stands for the host's `links[a]->IsRigidlyAttached(links[b])`. -/
def bIgnoreCollision_disabled (pbody : KinBody) (IsRigidlyAttached : Nat → Nat → Bool)
    (i0 i1 : Nat) : Bool :=
  pbody.adjacentLinks.contains (adjacencyKey i0 i1) || IsRigidlyAttached i0 i0

/-- The flag as the specification words it: the packed pair is in the adjacency set, or
the two endpoint links are rigidly attached to each other. -/
def collisionExcluded_spec (pbody : KinBody) (IsRigidlyAttached : Nat → Nat → Bool)
    (i0 i1 : Nat) : Bool :=
  pbody.adjacentLinks.contains (adjacencyKey i0 i1) || IsRigidlyAttached i0 i1

/-- The hinge limits inside the comment at lines 391–404: `setLimit(lower, upper, ...)`
first, and for a joint that is not circular `setLimit(diff - upper, diff - lower)` with
`diff = btInitialAngle + orInitialAngle`. `btInitialAngle` is what the engine reports. -/
def hingeLimits_disabled (j : Joint) (btInitialAngle : ℚ) : ℚ × ℚ :=
  if j.circular then (j.lower, j.upper)
  else
    let orInitialAngle := j.value
    let diff := btInitialAngle + orInitialAngle
    let lower_adj := diff - j.upper
    let upper_adj := diff - j.lower
    (lower_adj, upper_adj)

/-- `pinfo->vlinks.at(i)` for an attached endpoint, null for a missing one. -/
def endpoint_disabled (vlinks : List LINK) : Option Nat → Except Failure (Option LINK)
  | none => pure none
  | some i => match vlinks[i]? with
    | some l => pure (some l)
    | none => Except.error Failure.outOfRange

/-- One iteration of the joint loop inside the comment (lines 366–441): a joint with a
missing endpoint is skipped; hinge, slider and spherical joints yield a constraint,
registered with the flag above; universal, hinge2 and unknown kinds yield none. -/
def jointConstraint_disabled (pbody : KinBody) (IsRigidlyAttached : Nat → Nat → Bool)
    (btInitialAngle : Joint → ℚ) (vlinks : List LINK) (j : Joint) :
    Except Failure (Option Constraint) := do
  let body0 ← endpoint_disabled vlinks j.firstAttached
  let body1 ← endpoint_disabled vlinks j.secondAttached
  match body0, body1, j.firstAttached, j.secondAttached with
  | some _, some _, some i0, some i1 =>
    let flag := bIgnoreCollision_disabled pbody IsRigidlyAttached i0 i1
    match j.type with
    | JointType.JointHinge =>
      pure (some { joint := j.id, kind := j.type,
                   limits := some (hingeLimits_disabled j (btInitialAngle j)),
                   ignoreCollision := flag })
    | JointType.JointSlider =>
      pure (some { joint := j.id, kind := j.type, ignoreCollision := flag })
    | JointType.JointSpherical =>
      pure (some { joint := j.id, kind := j.type, ignoreCollision := flag })
    | _ => pure none
  | _, _, _, _ => pure none

/-- The joint loop inside the comment (lines 361–443): active joints, then passive
joints, and only when `_bPhysics` is set.  The result lists the constraints added to
the world, which are also the entries of `_mapjoints`. -/
def InitKinBody_disabled_joints (bPhysics : Bool) (pbody : KinBody)
    (IsRigidlyAttached : Nat → Nat → Bool) (btInitialAngle : Joint → ℚ)
    (vlinks : List LINK) : Except Failure (List Constraint) :=
  if bPhysics then do
    let made ← (pbody.joints ++ pbody.passiveJoints).mapM
      (jointConstraint_disabled pbody IsRigidlyAttached btInitialAngle vlinks)
    pure made.reduceOption
  else pure []

/-- The packed index pair as an `int` holds it: the low 32 bits of
`minindex|(maxindex<<16)`. -/
def adjacencyKey32 (i0 i1 : Nat) : Nat := adjacencyKey i0 i1 % 2 ^ 32

/-- `LINK::SetWorldTransform` (lines 64–67) as it would run if the disabled body of
`GetTransform` were compiled. -/
def LINK.SetWorldTransform_restored (compose : Transform → Transform → Transform)
    (inverse : Transform → Transform) (self : LINK) (s : Space) (comWorldTrans : MatrixNd) :
    Except Failure Space :=
  let host := GetTransform_disabled comWorldTrans
  match self.plink with
  | none => Except.error Failure.nullPointer
  | some ref => pure (s.setLinkTransform ref (compose host (inverse self.tlocal)))

/-- `LINK::GetWorldTransform` (lines 59–62) as it would run if the disabled body of
`GetRavelinTransform` were compiled. -/
def LINK.GetWorldTransform_restored (compose : Transform → Transform → Transform)
    (self : LINK) (s : Space) : Except Failure MatrixNd × Space :=
  let comWorldTrans := match self.plink with
    | none => Except.error Failure.nullPointer
    | some ref => match s.findLink ref with
      | none => Except.error Failure.nullPointer
      | some link => GetRavelinTransform_disabled (compose link.transform self.tlocal)
  (comWorldTrans, s)

/-! ## Sample inputs -/

/-- A body with one link and update stamp 5. -/
def staleBody : KinBody :=
  { id := 7, updateStamp := 5,
    links := [{ parent := 7, index := 0, transform := ⟨⟨1, 0, 0, 0⟩, ⟨3, 0, 0, 0⟩⟩ }] }

/-- Its record, last synchronized at stamp 0, with one link proxy, made under the
simulator 0. -/
def staleRecord : KinBodyInfo :=
  { pbody := some 7, nLastStamp := 0, vlinks := [{ plink := some ⟨7, 0⟩ }],
    _world := some 0 }

/-- A space that knows `staleBody`, returns `staleRecord` for it and has a
synchronization callback registered. -/
def staleSpace : Space :=
  { bodies := [staleBody], GetInfo := [(7, staleRecord)], worlds := [(0, {})],
    _world := some 0,
    _synccallback := true, _bPhysics := true }

/-- The same body with a record that is up to date. -/
def freshSpace : Space :=
  { staleSpace with GetInfo := [(7, { staleRecord with nLastStamp := 5 })] }

/-- A space whose lookup returns, for body 7, a record that belongs to body 8. -/
def corruptSpace : Space :=
  { staleSpace with GetInfo := [(7, { staleRecord with pbody := some 8 })] }

/-- A hinge joint between links 0 and 1 with limits [-1, 1] and model angle 0.2. -/
def hingeJoint : Joint :=
  { id := 0, parent := 9, type := JointType.JointHinge, firstAttached := some 0,
    secondAttached := some 1, lower := -1, upper := 1, value := 1 / 5 }

/-- A universal joint between the same two links. -/
def universalJoint : Joint :=
  { id := 1, parent := 9, type := JointType.JointUniversal, firstAttached := some 0,
    secondAttached := some 1 }

/-- A body with two adjacent links, joined by `hingeJoint` and `universalJoint`. -/
def hingeBody : KinBody :=
  { id := 9, updateStamp := 1,
    links := [{ parent := 9, index := 0 }, { parent := 9, index := 1 }],
    joints := [hingeJoint, universalJoint],
    adjacentLinks := [65536] }

/-- The same body with an empty adjacency set. -/
def looseBody : KinBody := { hingeBody with adjacentLinks := [] }

/-- A space with physics enabled, an attached empty world and no record yet. -/
def hingeSpace : Space :=
  { bodies := [hingeBody], GetInfo := [], worlds := [(0, {})], _world := some 0,
    _bPhysics := true }

/-- The space after a build for `hingeBody` has run with a new record. -/
def hingeSpaceBuilt : Space :=
  { hingeSpace with
    GetInfo := [(9, { pbody := some 9, _mobyspace := true, _world := some 0 })] }

/-- Rigid attachment in which every link is attached to itself and to no other link. -/
def selfAttachedOnly (a b : Nat) : Bool := a == b

/-- A pose whose quaternion has squared norm 4. -/
def longQuaternionPose : Transform := ⟨⟨2, 0, 0, 0⟩, ⟨0, 0, 0, 0⟩⟩

/-- A world in which the rigid bodies 1, 2 and 3 are registered. -/
def threeBodyWorld : World := { dynamicBodies := [1, 2, 3] }

/-- A record whose two link proxies own the rigid bodies 1 and 3. -/
def owningRecord : KinBodyInfo :=
  { pbody := some 7, vlinks := [{ _body := some 1 }, { _body := some 3 }] }

/-- The record that owns the rigid bodies 1 and 3, made under the simulator 1. -/
def owningRecordElsewhere : KinBodyInfo := { owningRecord with _world := some 1 }

/-- A space that points to the simulator 0 while a second simulator 1 exists; the rigid
bodies 1, 2 and 3 are registered in both. -/
def twoWorldSpace : Space :=
  { worlds := [(0, threeBodyWorld), (1, threeBodyWorld)], _world := some 0 }

/-- The proxy of link 0 of body 7, with the identity as its mass-frame offset. -/
def sampleProxy : LINK := { plink := some ⟨7, 0⟩ }

/-- An engine transform with the identity rotation (0, 0, 0, 1) and origin (1, 2, 3). -/
def sampleEngineTransform : MatrixNd := ⟨0, 0, 0, 1, 1, 2, 3⟩

/-- A body in a pose other than the zero pose, with two joint values. -/
def posedBody : KinBody :=
  { id := 7, updateStamp := 5, links := [{ parent := 7, index := 0 }],
    transform := ⟨⟨0, 1, 0, 0⟩, ⟨4, 5, 6, 0⟩⟩, dofValues := [2, -3] }

/-- A space without an attached world. -/
def detachedSpace : Space := { bodies := [posedBody] }

/-- A translation-only stand-in for the host's `Transform` product. -/
def sampleCompose (a b : Transform) : Transform :=
  ⟨a.rot, ⟨a.trans.x + b.trans.x, a.trans.y + b.trans.y, a.trans.z + b.trans.z, 0⟩⟩

/-- The matching stand-in for the host's `Transform` inverse. -/
def sampleInverse (a : Transform) : Transform :=
  ⟨a.rot, ⟨-a.trans.x, -a.trans.y, -a.trans.z, 0⟩⟩

/-! ## Auxiliary definitions for the statements -/

/-- Whether the record returned for `b` carries a stamp other than `b`'s current one. -/
def isStale (s : Space) (b : KinBody) : Bool :=
  match s.GetInfo.lookup b.id with
  | some pinfo => pinfo.nLastStamp != b.updateStamp
  | none => false

/-- The state after `_Synchronize` was entered for the listed records: only the log grows. -/
def Space.logged (s : Space) (ids : List BodyId) : Space :=
  { s with syncEntered := s.syncEntered ++ ids }

/-- The world with the listed rigid bodies taken out of the registered ones. -/
def World.withoutBodies (w : World) (ids : List RigidBodyId) : World :=
  { w with dynamicBodies := w.dynamicBodies.filter (fun b => !ids.contains b) }

/-- The rigid bodies a record's link proxies refer to through `_body`. -/
def KinBodyInfo.ownedBodies (info : KinBodyInfo) : List RigidBodyId :=
  info.vlinks.filterMap (fun link => link._body)

/-! ## Theorems: synchronization in the compiled code -/

/-- Logging no entry leaves the state as it is. -/
theorem Space.logged_nil (s : Space) : s.logged [] = s := by
  cases s; simp [Space.logged]

/-- Logging twice is logging the concatenation. -/
theorem Space.logged_logged (s : Space) (a b : List BodyId) :
    (s.logged a).logged b = s.logged (a ++ b) := by
  simp [Space.logged, List.append_assoc]

/-- Logging does not touch the records. -/
theorem Space.logged_GetInfo (s : Space) (a : List BodyId) : (s.logged a).GetInfo = s.GetInfo := rfl

/-- Logging does not change which records are stale. -/
theorem isStale_logged (s : Space) (a : List BodyId) (b : KinBody) :
    isStale (s.logged a) b = isStale s b := rfl

/-- One step of the compiled synchronization, for a body whose record is its own. -/
theorem SynchronizeBody_eq (s : Space) (B : KinBody) (R : KinBodyInfo)
    (hR : s.GetInfo.lookup B.id = some R) (hid : R.pbody = some B.id) :
    SynchronizeBody s B = Except.ok (s.logged (if isStale s B then [B.id] else [])) := by
  unfold SynchronizeBody isStale
  rw [hR]
  by_cases hst : R.nLastStamp = B.updateStamp
  · simp [hid, hst, Space.logged_nil]
  · simp [hid, hst, _Synchronize, Space.logged]

/-- The compiled loop over a list of bodies whose records are their own. -/
theorem foldlM_SynchronizeBody (l : List KinBody) (s : Space)
    (hall : ∀ B ∈ l, ∃ R, s.GetInfo.lookup B.id = some R ∧ R.pbody = some B.id) :
    l.foldlM SynchronizeBody s
      = Except.ok (s.logged ((l.filter (isStale s)).map (fun b => b.id))) := by
  induction l generalizing s with
  | nil => simp [Space.logged_nil]; rfl
  | cons B rest ih =>
    obtain ⟨R, hR, hid⟩ := hall B (List.mem_cons_self _ _)
    have hrest : ∀ B' ∈ rest, ∃ R', (s.logged (if isStale s B then [B.id] else [])).GetInfo.lookup B'.id
        = some R' ∧ R'.pbody = some B'.id := by
      intro B' hB'
      exact hall B' (List.mem_cons_of_mem _ hB')
    rw [List.foldlM_cons, SynchronizeBody_eq s B R hR hid]
    show List.foldlM SynchronizeBody _ rest = _
    rw [ih _ hrest, Space.logged_logged]
    have hfil : List.filter (isStale (s.logged (if isStale s B then [B.id] else []))) rest
        = List.filter (isStale s) rest := rfl
    rw [hfil]
    by_cases hB : isStale s B = true
    · simp [hB, List.filter_cons]
    · simp [hB, List.filter_cons]

/-- What the compiled synchronization leaves alone: everything but the entry log. -/
theorem SynchronizeBody_preserves (s s1 : Space) (B : KinBody)
    (h : SynchronizeBody s B = Except.ok s1) :
    s1.GetInfo = s.GetInfo ∧ s1.callbackCount = s.callbackCount ∧ s1._world = s._world
      ∧ s1.bodies = s.bodies ∧ s1._synccallback = s._synccallback := by
  unfold SynchronizeBody at h
  split at h
  · cases h
  · split at h
    · cases h
    · split at h
      · simp only [_Synchronize, Except.ok.injEq] at h
        subst h
        exact ⟨rfl, rfl, rfl, rfl, rfl⟩
      · simp only [Except.ok.injEq] at h
        subst h
        exact ⟨rfl, rfl, rfl, rfl, rfl⟩

/-- C1 (evaluation of the compiled code at a stale record).  Body 7 carries stamp 5, its
record carries stamp 0 and a callback is registered.  After `Synchronize(pbody)`, and
likewise after `Synchronize()`, `_Synchronize` has been entered once, yet the record
still carries stamp 0, its link proxy holds no pushed transform and the callback has
not run: the specified update does not take place. -/
theorem stale_record_stays_stale :
    SynchronizeBody staleSpace staleBody = Except.ok (staleSpace.logged [7])
    ∧ Synchronize staleSpace = Except.ok (staleSpace.logged [7])
    ∧ (staleSpace.logged [7]).GetInfo.lookup 7 = some staleRecord
    ∧ staleRecord.nLastStamp = 0 ∧ staleBody.updateStamp = 5
    ∧ staleRecord.vlinks.map (fun l => l.pose) = [none]
    ∧ staleSpace._synccallback = true
    ∧ (staleSpace.logged [7]).callbackCount = 0 := by
  decide

/-- C2.  For a body `B` whose record `R` names `B` as its body, `Synchronize(pbody)`
enters `_Synchronize` for `R` exactly when `R.nLastStamp` differs from `B`'s update
stamp, and otherwise returns the state as it was; when every body of the environment
has such a record, `Synchronize()` enters `_Synchronize` for exactly the bodies whose
stamps differ, in environment order, and changes nothing else. -/
theorem sync_runs_iff_stamp_differs (s : Space) (B : KinBody) (R : KinBodyInfo)
    (hR : s.GetInfo.lookup B.id = some R) (hid : R.pbody = some B.id)
    (hall : ∀ B' ∈ s.bodies, ∃ R', s.GetInfo.lookup B'.id = some R' ∧ R'.pbody = some B'.id) :
    (R.nLastStamp ≠ B.updateStamp → SynchronizeBody s B = _Synchronize s B.id)
    ∧ (R.nLastStamp = B.updateStamp → SynchronizeBody s B = Except.ok s)
    ∧ (∀ s1, SynchronizeBody s B = Except.ok s1 →
        (s1.syncEntered = s.syncEntered ++ [B.id] ↔ R.nLastStamp ≠ B.updateStamp)
        ∧ (s1.syncEntered = s.syncEntered ↔ R.nLastStamp = B.updateStamp))
    ∧ Synchronize s
        = Except.ok (s.logged ((s.bodies.filter (isStale s)).map (fun b => b.id))) := by
  have hstale : isStale s B = true ↔ R.nLastStamp ≠ B.updateStamp := by
    simp [isStale, hR]
  refine ⟨?_, ?_, ?_, foldlM_SynchronizeBody s.bodies s hall⟩
  · intro hne
    simp [SynchronizeBody, hR, hid, hne]
  · intro heq
    simp [SynchronizeBody, hR, hid, heq]
  · intro s1 h1
    rw [SynchronizeBody_eq s B R hR hid] at h1
    by_cases hst : R.nLastStamp = B.updateStamp
    · have : isStale s B = false := by simp [isStale, hR, hst]
      simp only [this, Bool.false_eq_true, if_false, Space.logged_nil, Except.ok.injEq] at h1
      subst h1
      simp [hst]
    · have : isStale s B = true := hstale.mpr hst
      simp only [this, if_true, Except.ok.injEq] at h1
      subst h1
      simp [hst, Space.logged]

/-- C2, at a concrete space: one body, stale record. -/
theorem sync_runs_iff_stamp_differs_witness :
    (staleRecord.nLastStamp ≠ staleBody.updateStamp →
        SynchronizeBody staleSpace staleBody = _Synchronize staleSpace staleBody.id)
    ∧ (staleRecord.nLastStamp = staleBody.updateStamp →
        SynchronizeBody staleSpace staleBody = Except.ok staleSpace)
    ∧ (∀ s1, SynchronizeBody staleSpace staleBody = Except.ok s1 →
        (s1.syncEntered = staleSpace.syncEntered ++ [staleBody.id]
            ↔ staleRecord.nLastStamp ≠ staleBody.updateStamp)
        ∧ (s1.syncEntered = staleSpace.syncEntered
            ↔ staleRecord.nLastStamp = staleBody.updateStamp))
    ∧ Synchronize staleSpace
        = Except.ok (staleSpace.logged
            ((staleSpace.bodies.filter (isStale staleSpace)).map (fun b => b.id))) :=
  sync_runs_iff_stamp_differs staleSpace staleBody staleRecord (by decide) (by decide)
    (by decide)

/-- A call that returns has found a record that names the queried body. -/
theorem SynchronizeBody_ok_record (s s1 : Space) (B : KinBody)
    (h : SynchronizeBody s B = Except.ok s1) :
    ∃ R, s.GetInfo.lookup B.id = some R ∧ R.pbody = some B.id := by
  unfold SynchronizeBody at h
  split at h
  · cases h
  · rename_i pinfo hlk
    by_cases hpb : pinfo.pbody = some B.id
    · exact ⟨pinfo, hlk, hpb⟩
    · simp [hpb] at h

/-- What a repeated `Synchronize(pbody)` leaves alone in the compiled code: the records
(stamp and link proxies included), the callback counter, the world pointer and the body
list.  The entry log is not among them. -/
theorem second_sync_is_noop (s s1 : Space) (B : KinBody)
    (h1 : SynchronizeBody s B = Except.ok s1) :
    ∃ s2, SynchronizeBody s1 B = Except.ok s2
      ∧ s2.GetInfo = s1.GetInfo
      ∧ s2.callbackCount = s1.callbackCount
      ∧ s2._world = s1._world
      ∧ s2.bodies = s1.bodies := by
  obtain ⟨hinfo, -, -, -, -⟩ := SynchronizeBody_preserves s s1 B h1
  obtain ⟨R, hR, hid⟩ := SynchronizeBody_ok_record s s1 B h1
  have hok : ∃ s2, SynchronizeBody s1 B = Except.ok s2 :=
    ⟨_, SynchronizeBody_eq s1 B R (by rw [hinfo]; exact hR) hid⟩
  obtain ⟨s2, h2⟩ := hok
  obtain ⟨a, b, c, d, -⟩ := SynchronizeBody_preserves s1 s2 B h2
  exact ⟨s2, h2, a, b, c, d⟩

/-- In the compiled code a call for a stale record leaves it stale: the same call made
again enters `_Synchronize` again. -/
theorem SynchronizeBody_stale_again (s s1 : Space) (B : KinBody)
    (h1 : SynchronizeBody s B = Except.ok s1) (hstale : isStale s B = true) :
    s1 = s.logged [B.id] ∧ SynchronizeBody s1 B = Except.ok (s.logged [B.id, B.id]) := by
  obtain ⟨R, hR, hid⟩ := SynchronizeBody_ok_record s s1 B h1
  rw [SynchronizeBody_eq s B R hR hid, hstale] at h1
  simp only [if_true, Except.ok.injEq] at h1
  subst h1
  refine ⟨rfl, ?_⟩
  rw [SynchronizeBody_eq (s.logged [B.id]) B R hR hid, isStale_logged, hstale]
  simp [Space.logged_logged]

/-- C5.  When the lookup returns a record `R` for the link's parent, `GetLinkBody` ends
in a failed assertion exactly when `R.pbody` is not that parent, and then hands back no
value; when `R.pbody` is the parent and the link's index is within `R.vlinks`, it
returns exactly the entry of `R.vlinks` at that index. -/
theorem GetLinkBody_mismatch_iff (s : Space) (L : Link) (R : KinBodyInfo)
    (hR : s.GetInfo.lookup L.parent = some R) :
    (GetLinkBody s L = Except.error Failure.assertionFailed ↔ R.pbody ≠ some L.parent)
    ∧ (R.pbody ≠ some L.parent → ∀ v, GetLinkBody s L ≠ Except.ok v)
    ∧ (R.pbody = some L.parent → ∀ h : L.index < R.vlinks.length,
        GetLinkBody s L = Except.ok (R.vlinks.get ⟨L.index, h⟩)) := by
  unfold GetLinkBody
  rw [hR]
  by_cases hid : R.pbody = some L.parent
  · refine ⟨?_, ?_, ?_⟩
    · simp only [hid, ne_eq, not_true_eq_false, if_false, iff_false]
      cases R.vlinks[L.index]? <;> simp
    · intro hne; exact absurd hid hne
    · intro _ h
      simp [hid, List.getElem?_eq_getElem h]
  · refine ⟨?_, ?_, ?_⟩
    · simp [hid]
    · intro _ v; simp [hid]
    · intro h; exact absurd h hid

/-- C5, at a concrete space: the matching record of the stale sample. -/
theorem GetLinkBody_mismatch_iff_witness :
    (GetLinkBody staleSpace { parent := 7, index := 0 } = Except.error Failure.assertionFailed
        ↔ staleRecord.pbody ≠ some 7)
    ∧ (staleRecord.pbody ≠ some 7 →
        ∀ v, GetLinkBody staleSpace { parent := 7, index := 0 } ≠ Except.ok v)
    ∧ (staleRecord.pbody = some 7 → ∀ h : 0 < staleRecord.vlinks.length,
        GetLinkBody staleSpace { parent := 7, index := 0 }
          = Except.ok (staleRecord.vlinks.get ⟨0, h⟩)) :=
  GetLinkBody_mismatch_iff staleSpace { parent := 7, index := 0 } staleRecord (by decide)

/-- The fatal mismatch scenario, evaluated: a record of body 8 returned for body 7. -/
theorem GetLinkBody_corrupt_registry :
    GetLinkBody corruptSpace { parent := 7, index := 0 } = Except.error Failure.assertionFailed := by
  decide

/-- An index past the end is a different failure than the identity check. -/
theorem GetLinkBody_past_the_end :
    GetLinkBody staleSpace { parent := 7, index := 1 } = Except.error Failure.outOfRange := by
  decide

/-! ## Theorems: the builder in the compiled code -/

/-- The compiled link loop returns the record it was given. -/
theorem InitKinBody.foldl_linkStep (l : List Link) (i : KinBodyInfo) :
    l.foldl InitKinBody.linkStep i = i := by
  induction l with
  | nil => rfl
  | cons _ _ ih => simpa [InitKinBody.linkStep] using ih

/-- The compiled builder leaves `vlinks` as it found it: the entries of the record passed
in, or none for a new record. -/
theorem InitKinBody_effects_vlinks (s : Space) (B : KinBody) (existing : Option KinBodyInfo)
    (e : BuildEffects) (h : InitKinBody.effects s B existing = Except.ok e) :
    e.pinfo.vlinks = (existing.getD (KinBodyInfo.new s._world)).vlinks
      ∧ e.pinfo.pbody = some B.id := by
  have hfold := InitKinBody.foldl_linkStep
  unfold InitKinBody.effects at h
  cases hreset : (match existing with
      | some existing => existing
      | none => KinBodyInfo.new s._world).ResetIn s.worlds with
  | error err => simp [hreset, bind, Except.bind] at h
  | ok w =>
    simp only [hreset, bind, Except.bind, pure, Except.pure, hfold, Except.ok.injEq] at h
    subst h
    cases existing <;> exact ⟨rfl, rfl⟩

/-- The compiled builder never hands a record back. -/
theorem InitKinBody_never_returns (s : Space) (B : KinBody) (existing : Option KinBodyInfo)
    (r : KinBodyInfo) : InitKinBody s B existing ≠ Except.ok r := by
  unfold InitKinBody
  cases InitKinBody.effects s B existing <;> simp [bind, Except.bind]

/-- C4 (evaluation of the compiled code).  For a body with two links and no existing
record, the record the builder worked on ends with no link proxy at all; with a record
reused from the one-link body 7, it ends with that record's single old proxy, which
refers to link 0 of body 7; in both cases no record is returned. -/
theorem InitKinBody_builds_no_link_proxy :
    hingeBody.links.length = 2
    ∧ (InitKinBody.effects hingeSpace hingeBody none).map (fun e => e.pinfo.vlinks)
        = Except.ok []
    ∧ (InitKinBody.effects hingeSpace hingeBody (some staleRecord)).map
        (fun e => e.pinfo.vlinks.map (fun l => l.plink)) = Except.ok [some ⟨7, 0⟩]
    ∧ InitKinBody hingeSpace hingeBody none = Except.error Failure.missingReturn
    ∧ InitKinBody hingeSpace hingeBody (some staleRecord)
        = Except.error Failure.missingReturn := by
  decide

/-! ## Theorems: the transform bridge in the compiled code -/

/-- C6 (evaluation of the compiled code).  For every host pose, the identity pose
included, converting to the engine form and back yields no pose: both conversion
functions end without a `return`. -/
theorem round_trip_yields_no_pose (P : Transform) :
    (GetRavelinTransform P).bind GetTransform = Except.error Failure.missingReturn
    ∧ (GetRavelinTransform P).bind GetTransform ≠ Except.ok P
    ∧ |Transform.identity.rot.lengthsqr4 - 1| ≤ 1 / 100 := by
  refine ⟨rfl, ?_, ?_⟩
  · simp [GetRavelinTransform, Except.bind]
  · norm_num [Transform.identity, Vector.lengthsqr4]

/-- C7 (evaluation of the compiled code).  A pose whose quaternion has squared norm 4
does not end in a precondition violation, and the identity pose, which is within the
tolerance, yields no transform: the compiled function makes no check and returns
nothing. -/
theorem no_norm_check_is_made :
    |longQuaternionPose.rot.lengthsqr4 - 1| > 1 / 100
    ∧ GetRavelinTransform longQuaternionPose ≠ Except.error Failure.preconditionViolation
    ∧ |Transform.identity.rot.lengthsqr4 - 1| ≤ 1 / 100
    ∧ (∀ m, GetRavelinTransform Transform.identity ≠ Except.ok m) := by
  refine ⟨?_, ?_, ?_, ?_⟩
  · norm_num [longQuaternionPose, Vector.lengthsqr4]
  · simp [GetRavelinTransform]
  · norm_num [Transform.identity, Vector.lengthsqr4]
  · intro m; simp [GetRavelinTransform]

/-! ## Theorems: joints in the compiled code -/

/-- For two links joined by a hinge, with physics enabled: the compiled builder
registers no constraint and hence no collision-exclusion flag, also when the links are
adjacent.  The flag expression of the disabled joint loop, for links 0 and 1 that are
neither adjacent nor attached to each other while each is attached to itself, is
`true`, where the specified condition is `false`: it tests the first link against
itself. -/
theorem collision_flag_not_as_specified :
    (InitKinBody.effects hingeSpace hingeBody none).map
        (fun e => e.world.map (fun w => w.constraints)) = Except.ok (some [])
    ∧ hingeBody.adjacentLinks.contains (adjacencyKey 0 1) = true
    ∧ bIgnoreCollision_disabled looseBody selfAttachedOnly 0 1 = true
    ∧ collisionExcluded_spec looseBody selfAttachedOnly 0 1 = false := by
  decide

/-- C9 (evaluation of the compiled code).  For a body whose hinge joint is not
circular and declares the limits [-1, 1], the compiled builder creates no constraint and
sets no limit: the world's constraint list is empty after the call, and asking for the
joint's constraint afterwards yields no handle. -/
theorem hinge_limits_never_set :
    hingeJoint.circular = false
    ∧ hingeJoint ∈ hingeBody.joints
    ∧ (InitKinBody.effects hingeSpace hingeBody none).map
        (fun e => e.world.map (fun w => w.constraints.map (fun c => c.limits)))
        = Except.ok (some [])
    ∧ GetJoint hingeSpaceBuilt hingeJoint = Except.error Failure.missingReturn := by
  refine ⟨by decide, ?_, by decide, by decide⟩
  simp [hingeBody]

/-- C10 (evaluation of the compiled code).  `hingeJoint` is a hinge with both endpoints
attached, yet after the compiled build no constraint exists for it and `GetJoint`
yields no handle; the two links of the body have no proxies either. -/
theorem supported_joint_gets_no_handle :
    hingeJoint.type = JointType.JointHinge
    ∧ hingeJoint.firstAttached = some 0 ∧ hingeJoint.secondAttached = some 1
    ∧ (InitKinBody.effects hingeSpace hingeBody none).map
        (fun e => (e.pinfo, e.world))
        = Except.ok ({ pbody := some 9, _mobyspace := true, _world := some 0 }, some {})
    ∧ hingeSpaceBuilt.GetInfo
        = [(9, { pbody := some 9, _mobyspace := true, _world := some 0 })]
    ∧ GetJoint hingeSpaceBuilt hingeJoint = Except.error Failure.missingReturn
    ∧ (∀ c, GetJoint hingeSpaceBuilt hingeJoint ≠ Except.ok c) := by
  have hget : GetJoint hingeSpaceBuilt hingeJoint = Except.error Failure.missingReturn := by
    decide
  refine ⟨by decide, by decide, by decide, by decide, by decide, hget, ?_⟩
  intro c; rw [hget]; simp

/-! ## Theorems: what the disabled blocks would do -/

/-- The disabled push loop, entry by entry. -/
theorem pushTransforms_disabled_getElem (compose : Transform → Transform → Transform) :
    ∀ (ts : List Transform) (ls out : List LINK),
      pushTransforms_disabled compose ts ls = Except.ok out →
      ∀ (i : Nat) (t : Transform) (l : LINK), ts[i]? = some t → ls[i]? = some l →
        ∃ m, GetRavelinTransform_disabled (compose t l.tlocal) = Except.ok m
          ∧ out[i]? = some { l with pose := some m } := by
  intro ts
  induction ts with
  | nil => intro ls out _ i t l ht; simp at ht
  | cons t0 ts ih =>
    intro ls out h i t l ht hl
    cases ls with
    | nil => simp at hl
    | cons l0 ls =>
      simp only [pushTransforms_disabled, bind, Except.bind] at h
      cases hm : GetRavelinTransform_disabled (compose t0 l0.tlocal) with
      | error err => simp [hm] at h
      | ok m0 =>
        cases hrest : pushTransforms_disabled compose ts ls with
        | error err => simp [hm, hrest] at h
        | ok rest =>
          simp only [hm, hrest, pure, Except.pure, Except.ok.injEq] at h
          subst h
          cases i with
          | zero =>
            simp only [List.getElem?_cons_zero, Option.some.injEq] at ht hl
            subst ht; subst hl
            exact ⟨m0, hm, by simp⟩
          | succ k =>
            simp only [List.getElem?_cons_succ] at ht hl
            obtain ⟨m, hm1, hm2⟩ := ih ls rest hrest k t l ht hl
            exact ⟨m, hm1, by simpa using hm2⟩

/-- The disabled push loop keeps the number of link proxies when the sizes agree. -/
theorem pushTransforms_disabled_length (compose : Transform → Transform → Transform) :
    ∀ (ts : List Transform) (ls out : List LINK), ts.length = ls.length →
      pushTransforms_disabled compose ts ls = Except.ok out → out.length = ls.length := by
  intro ts
  induction ts with
  | nil =>
    intro ls out hlen h
    cases ls with
    | nil => simp [pushTransforms_disabled, pure, Except.pure] at h; simp [← h]
    | cons _ _ => simp at hlen
  | cons t0 ts ih =>
    intro ls out hlen h
    cases ls with
    | nil => simp at hlen
    | cons l0 ls =>
      simp only [pushTransforms_disabled, bind, Except.bind] at h
      cases hm : GetRavelinTransform_disabled (compose t0 l0.tlocal) with
      | error err => simp [hm] at h
      | ok m0 =>
        cases hrest : pushTransforms_disabled compose ts ls with
        | error err => simp [hm, hrest] at h
        | ok rest =>
          simp only [hm, hrest, pure, Except.pure, Except.ok.injEq] at h
          subst h
          simp only [List.length_cons, add_left_inj] at hlen ⊢
          exact ih ls rest hlen hrest

/-- With its disabled body restored, `_Synchronize` would do what C1 describes: when it
returns, the record carries the body's stamp, link proxy `i` holds the engine form of
`linkTransform[i] * tlocal[i]`, and a registered callback has run exactly once. -/
theorem _Synchronize_disabled_spec (compose : Transform → Transform → Transform)
    (cb : Bool) (R R1 : KinBodyInfo) (B : KinBody) (n : Nat)
    (h : _Synchronize_disabled compose cb R B = Except.ok (R1, n)) :
    R1.nLastStamp = B.updateStamp
    ∧ n = (if cb then 1 else 0)
    ∧ R1.vlinks.length = B.links.length
    ∧ (∀ (i : Nat) (link : Link) (l : LINK), B.links[i]? = some link → R.vlinks[i]? = some l →
        ∃ m, GetRavelinTransform_disabled (compose link.transform l.tlocal) = Except.ok m
          ∧ R1.vlinks[i]? = some { l with pose := some m })
    ∧ R1.pbody = R.pbody := by
  unfold _Synchronize_disabled at h
  by_cases hlen : (B.links.map (fun l => l.transform)).length = R.vlinks.length
  · simp only [hlen, ne_eq, not_true_eq_false, if_false, bind, Except.bind] at h
    cases hp : pushTransforms_disabled compose (B.links.map (fun l => l.transform)) R.vlinks with
    | error err => simp [hp] at h
    | ok out =>
      simp only [hp, pure, Except.pure, Except.ok.injEq, Prod.mk.injEq] at h
      obtain ⟨hR1, hn⟩ := h
      subst hR1
      refine ⟨rfl, hn.symm, ?_, ?_, rfl⟩
      · rw [pushTransforms_disabled_length compose _ _ _ hlen hp, ← hlen, List.length_map]
      · intro i link l hlink hl
        exact pushTransforms_disabled_getElem compose _ _ _ hp i link.transform l
          (by simp [List.getElem?_map, hlink]) hl
  · rw [List.length_map] at hlen
    simp [hlen, bind, Except.bind] at h

/-- With the disabled body restored, a record that has just been synchronized is not
stale for the same body stamp, so a second `Synchronize(pbody)` would skip it. -/
theorem _Synchronize_disabled_then_fresh (compose : Transform → Transform → Transform)
    (cb : Bool) (R R1 : KinBodyInfo) (B : KinBody) (n : Nat)
    (h : _Synchronize_disabled compose cb R B = Except.ok (R1, n)) :
    ¬ (R1.nLastStamp ≠ B.updateStamp) := by
  simp [(_Synchronize_disabled_spec compose cb R R1 B n h).1]

/-- The disabled link loop appends: the record ends with its old proxies followed by
one proxy per link of the body. -/
theorem InitKinBody_disabled_links_length (B : KinBody) (R : KinBodyInfo) :
    (InitKinBody_disabled_links B R).vlinks.length = R.vlinks.length + B.links.length := by
  simp [InitKinBody_disabled_links]

/-- On a record without proxies the disabled link loop is index-aligned. -/
theorem InitKinBody_disabled_links_aligned (B : KinBody) (R : KinBodyInfo)
    (hR : R.vlinks = []) (i : Nat) (link : Link) (hi : B.links[i]? = some link) :
    (InitKinBody_disabled_links B R).vlinks[i]?
      = some { plink := some link.ref, tlocal := link.localMassFrame } := by
  simp [InitKinBody_disabled_links, hR, List.getElem?_map, hi]

/-- On a reused record the disabled link loop is not index-aligned either: `Reset`
keeps the old proxies, so for the two-link body and the record of body 7 there are three
proxies and the first refers to body 7. -/
theorem InitKinBody_disabled_links_reuse :
    (InitKinBody_disabled_links hingeBody staleRecord).vlinks.map (fun l => l.plink)
      = [some ⟨7, 0⟩, some ⟨9, 0⟩, some ⟨9, 1⟩] := by
  decide

/-- The disabled conversions undo each other on the quaternion and on the first three
translation components; the fourth translation component comes back as 0. -/
theorem GetTransform_disabled_round_trip (P : Transform) (m : MatrixNd)
    (h : GetRavelinTransform_disabled P = Except.ok m) :
    GetTransform_disabled m = { P with trans := { P.trans with w := 0 } } := by
  unfold GetRavelinTransform_disabled at h
  split at h
  · simp only [Except.ok.injEq] at h
    subst h
    rfl
  · cases h

/-- The disabled `GetRavelinTransform` fails exactly outside the tolerance 0.01 on the
squared norm, and returns a transform exactly within it (boundary included). -/
theorem GetRavelinTransform_disabled_fails_iff (P : Transform) :
    (GetRavelinTransform_disabled P = Except.error Failure.preconditionViolation
        ↔ |P.rot.lengthsqr4 - 1| > 1 / 100)
    ∧ ((∃ m, GetRavelinTransform_disabled P = Except.ok m)
        ↔ |P.rot.lengthsqr4 - 1| ≤ 1 / 100) := by
  unfold GetRavelinTransform_disabled
  by_cases h : |P.rot.lengthsqr4 - 1| ≤ 1 / 100
  · rw [if_pos h]
    exact ⟨⟨fun hc => (by cases hc), fun hc => absurd h (not_le.mpr hc)⟩,
      ⟨fun _ => h, fun _ => ⟨_, rfl⟩⟩⟩
  · rw [if_neg h]
    exact ⟨⟨fun _ => not_le.mp h, fun _ => rfl⟩,
      ⟨fun hc => (by obtain ⟨m, hm⟩ := hc; cases hm), fun hc => absurd hc h⟩⟩

/-- The disabled flag is set for every adjacent pair. -/
theorem bIgnoreCollision_disabled_of_adjacent (B : KinBody) (rigid : Nat → Nat → Bool)
    (i0 i1 : Nat) (h : B.adjacentLinks.contains (adjacencyKey i0 i1) = true) :
    bIgnoreCollision_disabled B rigid i0 i1 = true := by
  unfold bIgnoreCollision_disabled
  rw [h]
  rfl

/-- The disabled flag differs from the specified one only through the attachment test:
it asks whether the first link is attached to itself. -/
theorem bIgnoreCollision_disabled_eq_spec (B : KinBody) (rigid : Nat → Nat → Bool)
    (i0 i1 : Nat) (h : rigid i0 i0 = rigid i0 i1) :
    bIgnoreCollision_disabled B rigid i0 i1 = collisionExcluded_spec B rigid i0 i1 := by
  simp [bIgnoreCollision_disabled, collisionExcluded_spec, h]

/-- The disabled hinge adjustment for a joint that is not circular. -/
theorem hingeLimits_disabled_eq (j : Joint) (a_e : ℚ) (h : j.circular = false) :
    hingeLimits_disabled j a_e = ((a_e + j.value) - j.upper, (a_e + j.value) - j.lower) := by
  simp [hingeLimits_disabled, h]

/-- The disabled hinge adjustment in the scenario of the specification: limits [-1, 1],
model angle 0.2, engine angle 0.05 give [-0.75, 1.25]. -/
theorem hingeLimits_disabled_scenario :
    (1 / 20 : ℚ) + hingeJoint.value = 1 / 4
    ∧ hingeLimits_disabled hingeJoint (1 / 20) = (-3 / 4, 5 / 4) := by
  constructor
  · norm_num [hingeJoint]
  · simp only [hingeLimits_disabled, hingeJoint]
    norm_num

/-- One iteration of the disabled joint loop, both endpoints attached and within
range: a constraint is made exactly for hinge, slider and spherical joints. -/
theorem jointConstraint_disabled_some_iff (B : KinBody) (rigid : Nat → Nat → Bool)
    (angle : Joint → ℚ) (vlinks : List LINK) (j : Joint) (i0 i1 : Nat)
    (h0 : j.firstAttached = some i0) (h1 : j.secondAttached = some i1)
    (r0 : i0 < vlinks.length) (r1 : i1 < vlinks.length) :
    (∃ c, jointConstraint_disabled B rigid angle vlinks j = Except.ok (some c))
      ↔ (j.type = JointType.JointHinge ∨ j.type = JointType.JointSlider
          ∨ j.type = JointType.JointSpherical) := by
  unfold jointConstraint_disabled endpoint_disabled
  simp only [h0, h1, List.getElem?_eq_getElem r0, List.getElem?_eq_getElem r1, bind,
    Except.bind, pure, Except.pure]
  cases j.type <;> simp

/-- One iteration of the disabled joint loop, an endpoint missing: the joint is
skipped without a failure. -/
theorem jointConstraint_disabled_missing_endpoint (B : KinBody) (rigid : Nat → Nat → Bool)
    (angle : Joint → ℚ) (vlinks : List LINK) (j : Joint)
    (h : j.firstAttached = none ∧ j.secondAttached = none) :
    jointConstraint_disabled B rigid angle vlinks j = Except.ok none := by
  unfold jointConstraint_disabled endpoint_disabled
  simp [h.1, h.2, bind, Except.bind, pure, Except.pure]

/-- The disabled joint loop runs only with `_bPhysics`: without it no joint gets a
constraint, whatever its kind and endpoints. -/
theorem InitKinBody_disabled_joints_without_physics (B : KinBody)
    (rigid : Nat → Nat → Bool) (angle : Joint → ℚ) (vlinks : List LINK) :
    InitKinBody_disabled_joints false B rigid angle vlinks = Except.ok [] := by
  simp [InitKinBody_disabled_joints, pure, Except.pure]

/-- The disabled joint loop on the sample body with two proxies: the hinge gets a
constraint with the adjusted limits and the exclusion flag, the universal joint none. -/
theorem InitKinBody_disabled_joints_sample :
    (InitKinBody_disabled_joints true hingeBody selfAttachedOnly (fun _ => 1 / 20)
        [{}, {}]).map (fun cs => cs.map (fun c => (c.joint, c.ignoreCollision)))
      = Except.ok [(0, true)] := by
  decide

/-- A lookup after a write through the record pointer finds the written record. -/
theorem lookup_setRecord (key : BodyId) (pinfo old : KinBodyInfo) :
    ∀ (table : List (BodyId × KinBodyInfo)), table.lookup key = some old →
      (setRecord key pinfo table).lookup key = some pinfo := by
  intro table
  induction table with
  | nil => intro h; simp at h
  | cons e rest ih =>
    intro h
    obtain ⟨k, r⟩ := e
    by_cases hk : key = k
    · subst hk; simp [setRecord, List.lookup]
    · have hb : (key == k) = false := by simpa using hk
      simp only [List.lookup, hb] at h
      simp only [setRecord, hb, Bool.false_eq_true, if_false, List.lookup]
      exact ih h

/-- With the disabled body of `_Synchronize` restored, a stale record would be brought
up to date by `Synchronize(pbody)`: afterwards the lookup finds a record with the body's
stamp whose link proxies hold the pushed transforms, `_Synchronize` has been entered
once and a registered callback has run once. -/
theorem SynchronizeBody_restored_stale (compose : Transform → Transform → Transform)
    (s s1 : Space) (B : KinBody) (R : KinBodyInfo)
    (hR : s.GetInfo.lookup B.id = some R) (hid : R.pbody = some B.id)
    (hstale : R.nLastStamp ≠ B.updateStamp)
    (h : SynchronizeBody_restored compose s B = Except.ok s1) :
    ∃ R1, s1.GetInfo.lookup B.id = some R1
      ∧ R1.pbody = some B.id
      ∧ R1.nLastStamp = B.updateStamp
      ∧ (∀ (i : Nat) (link : Link) (l : LINK), B.links[i]? = some link → R.vlinks[i]? = some l →
          ∃ m, GetRavelinTransform_disabled (compose link.transform l.tlocal) = Except.ok m
            ∧ R1.vlinks[i]? = some { l with pose := some m })
      ∧ s1.syncEntered = s.syncEntered ++ [B.id]
      ∧ s1.callbackCount = s.callbackCount + (if s._synccallback then 1 else 0) := by
  unfold SynchronizeBody_restored at h
  simp only [hR, hid, ne_eq, not_true_eq_false, if_false, hstale, not_false_eq_true, if_true,
    bind, Except.bind] at h
  cases hsync : _Synchronize_disabled compose s._synccallback R B with
  | error err => simp [hsync] at h
  | ok res =>
    obtain ⟨R1, n⟩ := res
    simp only [hsync, pure, Except.pure, Except.ok.injEq] at h
    subst h
    obtain ⟨hstamp, hn, -, hpush, hpb⟩ := _Synchronize_disabled_spec compose _ R R1 B n hsync
    exact ⟨R1, lookup_setRecord B.id R1 R s.GetInfo hR, by rw [hpb, hid], hstamp, hpush, rfl,
      by simp [hn]⟩

/-- With the disabled body of `_Synchronize` restored, a second `Synchronize(pbody)` for
the same body and stamp would return the state of the first call unchanged. -/
theorem SynchronizeBody_restored_twice (compose : Transform → Transform → Transform)
    (s s1 : Space) (B : KinBody)
    (h : SynchronizeBody_restored compose s B = Except.ok s1) :
    SynchronizeBody_restored compose s1 B = Except.ok s1 := by
  cases hR : s.GetInfo.lookup B.id with
  | none => simp [SynchronizeBody_restored, hR] at h
  | some R =>
    by_cases hid : R.pbody = some B.id
    · by_cases hstale : R.nLastStamp = B.updateStamp
      · have hs : s1 = s := by
          simp [SynchronizeBody_restored, hR, hid, hstale] at h
          exact h.symm
        subst hs
        simp [SynchronizeBody_restored, hR, hid, hstale]
      · obtain ⟨R1, hR1, hid1, hst1, -⟩ :=
          SynchronizeBody_restored_stale compose s s1 B R hR hid hstale h
        simp [SynchronizeBody_restored, hR1, hid1, hst1]
    · simp [SynchronizeBody_restored, hR, hid] at h

/-! ## Theorems: deregistration in the compiled code -/

/-- The compiled `Reset` loop, for an attached world: what stays registered is what no
link proxy of the list refers to through `_body`. -/
theorem Reset_foldlM (ls : List LINK) (w : World) :
    ls.foldlM
      (fun w link => match w with
        | none => Except.error Failure.nullPointer
        | some w => Except.ok (some (w.remove_dynamic_body link._body)))
      (some w)
    = Except.ok (some (w.withoutBodies (ls.filterMap (fun link => link._body)))) := by
  induction ls generalizing w with
  | nil => simp [pure, Except.pure, World.withoutBodies]
  | cons l rest ih =>
    simp only [List.foldlM_cons, bind, Except.bind]
    rw [ih]
    cases hb : l._body with
    | none => simp [World.remove_dynamic_body, hb]
    | some id =>
      simp only [World.remove_dynamic_body, World.withoutBodies, List.filter_filter,
        List.filterMap_cons, hb]
      congr 3
      apply List.filter_congr
      intro b _
      by_cases hid : b = id
      · simp [hid]
      · have hid2 : ¬ id = b := fun h => hid h.symm
        simp [hid, hid2]

/-- The compiled `Reset` in closed form, for an attached world. -/
theorem Reset_eq (R : KinBodyInfo) (w : World) :
    R.Reset (some w) = Except.ok (some (w.withoutBodies R.ownedBodies)) :=
  Reset_foldlM R.vlinks w

/-- Taking bodies out of a world leaves its constraints alone. -/
theorem World.withoutBodies_constraints (w : World) (ids : List RigidBodyId) :
    (w.withoutBodies ids).constraints = w.constraints := rfl

/-- A lookup after a write through a world pointer finds the written simulator. -/
theorem lookup_setWorld_same (id : WorldId) (w old : World) :
    ∀ (worlds : List (WorldId × World)), worlds.lookup id = some old →
      (setWorld id w worlds).lookup id = some w := by
  intro worlds
  induction worlds with
  | nil => intro h; simp at h
  | cons e rest ih =>
    intro h
    obtain ⟨k, v⟩ := e
    by_cases hk : id = k
    · subst hk; simp [setWorld, List.lookup]
    · have hb : (id == k) = false := by simpa using hk
      simp only [List.lookup, hb] at h
      simp only [setWorld, hb, Bool.false_eq_true, if_false, List.lookup]
      exact ih h

/-- A write through a world pointer leaves every other simulator as it was. -/
theorem lookup_setWorld_other (id k : WorldId) (w : World) (hk : k ≠ id) :
    ∀ (worlds : List (WorldId × World)), (setWorld id w worlds).lookup k = worlds.lookup k := by
  intro worlds
  induction worlds with
  | nil => rfl
  | cons e rest ih =>
    obtain ⟨k1, v⟩ := e
    by_cases h1 : id = k1
    · subst h1
      have hb : (k == id) = false := by simpa using hk
      simp [setWorld, List.lookup, hb]
    · have hb : (id == k1) = false := by simpa using h1
      simp only [setWorld, hb, Bool.false_eq_true, if_false, List.lookup]
      cases k == k1
      · exact ih
      · rfl

/-- `Reset` among the simulators that exist, in closed form: when it returns, the
simulator the record's own `_world` points to has lost the bodies the record owns, and
every other simulator is as it was. -/
theorem ResetIn_lookup (R : KinBodyInfo) (worlds after : List (WorldId × World))
    (h : R.ResetIn worlds = Except.ok after) (k : WorldId) :
    after.lookup k
      = if R._world = some k then (worlds.lookup k).map (fun w => w.withoutBodies R.ownedBodies)
        else worlds.lookup k := by
  unfold KinBodyInfo.ResetIn at h
  cases hw : R._world with
  | none =>
    simp only [hw, bind, Except.bind] at h
    cases hr : R.Reset none with
    | error err => simp [hr] at h
    | ok x =>
      simp only [hr, pure, Except.pure, Except.ok.injEq] at h
      subst h
      simp
  | some id =>
    simp only [hw, bind, Except.bind] at h
    cases hl : worlds.lookup id with
    | none =>
      simp only [hl] at h
      cases hr : R.Reset none with
      | error err => simp [hr] at h
      | ok x =>
        have hx : x = none := by
          unfold KinBodyInfo.Reset at hr
          cases hv : R.vlinks with
          | nil => simp [hv, pure, Except.pure] at hr; exact hr.symm
          | cons l rest => simp [hv, List.foldlM_cons, bind, Except.bind] at hr
        subst hx
        simp only [hr, pure, Except.pure, Except.ok.injEq] at h
        subst h
        by_cases hk : id = k
        · subst hk; simp [hl]
        · simp [hk]
    | some w =>
      simp only [hl, Reset_eq, pure, Except.pure, Except.ok.injEq] at h
      subst h
      by_cases hk : id = k
      · subst hk
        simp [lookup_setWorld_same id _ w worlds hl, hl]
      · have hk2 : k ≠ id := fun e => hk e.symm
        simp [hk, lookup_setWorld_other id k _ hk2]

/-- The compiled builder in closed form: when it reaches the closing brace, the record it
worked on is the one passed in, or a new one made under the space's world, with `pbody`
and `_mobyspace` set, and the simulators are those that `Reset` left. -/
theorem InitKinBody.effects_ok (s : Space) (B : KinBody) (existing : Option KinBodyInfo)
    (e : BuildEffects) (h : InitKinBody.effects s B existing = Except.ok e) :
    (existing.getD (KinBodyInfo.new s._world)).ResetIn s.worlds = Except.ok e.worlds
    ∧ e.world = s._world.bind (fun id => e.worlds.lookup id)
    ∧ e.pinfo.vlinks = (existing.getD (KinBodyInfo.new s._world)).vlinks
    ∧ e.pinfo._world = (existing.getD (KinBodyInfo.new s._world))._world := by
  unfold InitKinBody.effects at h
  cases hr : (match existing with
      | some existing => existing
      | none => KinBodyInfo.new s._world).ResetIn s.worlds with
  | error err => simp [hr, bind, Except.bind] at h
  | ok w =>
    simp only [hr, bind, Except.bind, pure, Except.pure, InitKinBody.foldl_linkStep,
      Except.ok.injEq] at h
    subst h
    cases existing <;> exact ⟨hr, rfl, rfl, rfl⟩

/-- The compiled builder registers no constraint: in every simulator the constraints
after the call are those before it. -/
theorem InitKinBody_effects_constraints (s : Space) (B : KinBody)
    (existing : Option KinBodyInfo) (e : BuildEffects)
    (h : InitKinBody.effects s B existing = Except.ok e) (k : WorldId) :
    (e.worlds.lookup k).map (fun w => w.constraints)
      = (s.worlds.lookup k).map (fun w => w.constraints) := by
  obtain ⟨hreset, -, -, -⟩ := InitKinBody.effects_ok s B existing e h
  rw [ResetIn_lookup _ _ _ hreset k]
  split
  · cases s.worlds.lookup k <;> simp [World.withoutBodies_constraints]
  · rfl

/-- C11.  After `Reset`, and after the destructor, which is `Reset`, the world the
record points to holds none of the rigid bodies that the record's link proxies refer
to, every other body that was registered there is still registered, and nothing new is
registered.  When `InitKinBody` is given the record for reuse, the same holds for the
simulator the record's own `_world` points to, whichever simulator the space points to,
and every other simulator is left as it was. -/
theorem reset_deregisters_owned_bodies (R : KinBodyInfo) (w : World) :
    ∃ w1, R.Reset (some w) = Except.ok (some w1)
      ∧ R.destroy (some w) = Except.ok (some w1)
      ∧ (∀ b ∈ R.ownedBodies, b ∉ w1.dynamicBodies)
      ∧ (∀ b ∈ w.dynamicBodies, b ∉ R.ownedBodies → b ∈ w1.dynamicBodies)
      ∧ (∀ b ∈ w1.dynamicBodies, b ∈ w.dynamicBodies)
      ∧ (∀ (s : Space) (B : KinBody) (id : WorldId) (e : BuildEffects),
          R._world = some id → s.worlds.lookup id = some w →
          InitKinBody.effects s B (some R) = Except.ok e →
          e.worlds.lookup id = some w1
          ∧ ∀ k, k ≠ id → e.worlds.lookup k = s.worlds.lookup k) := by
  refine ⟨_, Reset_eq R w, Reset_eq R w, ?_, ?_, ?_, ?_⟩
  · intro b hb hmem
    simp only [World.withoutBodies, List.mem_filter] at hmem
    simp [hb] at hmem
  · intro b hb hnot
    simp only [World.withoutBodies, List.mem_filter]
    exact ⟨hb, by simp [hnot]⟩
  · intro b hmem
    exact (List.mem_filter.mp hmem).1
  · intro s B id e hid hw he
    obtain ⟨hreset, -, -, -⟩ := InitKinBody.effects_ok s B (some R) e he
    simp only [Option.getD_some] at hreset
    refine ⟨?_, ?_⟩
    · rw [ResetIn_lookup _ _ _ hreset id]
      simp [hid, hw]
    · intro k hk
      rw [ResetIn_lookup _ _ _ hreset k]
      have : ¬ R._world = some k := by
        rw [hid]; intro h; exact hk (Option.some.inj h).symm
      simp [this]

/-- The reuse, evaluated where the record's simulator is not the one the space points
to: the record's simulator 1 keeps only body 2, the space's simulator 0 keeps all
three bodies. -/
theorem InitKinBody_reuse_other_world :
    (InitKinBody.effects twoWorldSpace posedBody (some owningRecordElsewhere)).map
        (fun e => (e.worlds, e.world))
      = Except.ok ([(0, threeBodyWorld), (1, { dynamicBodies := [2] })],
          some threeBodyWorld) := by
  decide

/-- The reuse, evaluated for a record whose own `_world` is null although the space
points to a simulator: `Reset` fails on the null pointer. -/
theorem InitKinBody_reuse_null_world :
    owningRecord._world = none
    ∧ twoWorldSpace._world = some 0
    ∧ InitKinBody.effects twoWorldSpace posedBody (some owningRecord)
        = Except.error Failure.nullPointer := by
  decide

/-- The deregistration, evaluated: of the registered bodies 1, 2 and 3, a record that
owns 1 and 3 leaves exactly 2. -/
theorem Reset_sample :
    owningRecord.Reset (some threeBodyWorld) = Except.ok (some { dynamicBodies := [2] }) := by
  decide

/-- Without an attached world, `Reset` of a record that has link proxies fails on the
null `_world`. -/
theorem Reset_detached :
    owningRecord.Reset none = Except.error Failure.nullPointer := by
  decide

/-! ## Theorems: the state saver around the builder -/

/-- Restoring after the zero pose gives back the body as it was passed in. -/
theorem KinBodyStateSaver.restore_zeroPose (B : KinBody) :
    KinBodyStateSaver.restore B B.zeroPose = B := by
  cases B; rfl

/-- C13.  Whatever way `InitKinBody` ends — with the effects of its compiled text or
with a failure part-way — the body afterwards has the world transform and the DOF values
it was passed in with, while inside the scope it had the identity transform and as many
DOF values as before, all of them zero. -/
theorem build_restores_pose (s : Space) (B : KinBody) (existing : Option KinBodyInfo) :
    (InitKinBody.guarded s B existing).zeroPosed.transform = Transform.identity
    ∧ (InitKinBody.guarded s B existing).zeroPosed.dofValues
        = List.replicate B.dofValues.length 0
    ∧ (InitKinBody.guarded s B existing).body.transform = B.transform
    ∧ (InitKinBody.guarded s B existing).body.dofValues = B.dofValues
    ∧ (InitKinBody.guarded s B existing).body = B
    ∧ (InitKinBody.guarded s B existing).outcome = InitKinBody.effects s B existing
    ∧ (∀ e, InitKinBody.effects s B existing = Except.ok e →
        e.body = (InitKinBody.guarded s B existing).body
        ∧ e.zeroPosed = (InitKinBody.guarded s B existing).zeroPosed) := by
  have hzero : ∀ l : List ℚ, l.map (fun _ => (0 : ℚ)) = List.replicate l.length 0 := by
    intro l
    induction l with
    | nil => rfl
    | cons _ _ ih => simp [List.replicate_succ, ih]
  refine ⟨rfl, hzero _, rfl, rfl, KinBodyStateSaver.restore_zeroPose B, rfl, ?_⟩
  intro e he
  unfold InitKinBody.effects at he
  cases hr : (match existing with
      | some existing => existing
      | none => KinBodyInfo.new s._world).ResetIn s.worlds with
  | error err => simp [hr, bind, Except.bind] at he
  | ok w =>
    simp only [hr, bind, Except.bind, pure, Except.pure, Except.ok.injEq] at he
    subst he
    exact ⟨rfl, rfl⟩

/-- Both ways of ending, evaluated on a body posed away from zero: the build that runs
to the closing brace, and the build cut short by the null world of a reused record. -/
theorem guarded_build_samples :
    (InitKinBody.guarded staleSpace posedBody none).outcome.toBool = true
    ∧ (InitKinBody.guarded staleSpace posedBody none).zeroPosed.dofValues = [0, 0]
    ∧ (InitKinBody.guarded staleSpace posedBody none).body = posedBody
    ∧ (InitKinBody.guarded detachedSpace posedBody (some owningRecord)).outcome
        = Except.error Failure.nullPointer
    ∧ (InitKinBody.guarded detachedSpace posedBody (some owningRecord)).body = posedBody := by
  decide

/-! ## Theorems: the link proxy accessors -/

/-- Searching a mapped list, when the map does not change what the search looks at. -/
theorem find?_map_of_preserved {α : Type} (p : α → Bool) (f : α → α)
    (hp : ∀ x, p (f x) = p x) (l : List α) :
    (l.map f).find? p = (l.find? p).map f := by
  induction l with
  | nil => rfl
  | cons x rest ih =>
    simp only [List.map_cons, List.find?_cons, hp]
    cases p x <;> simp [ih]

/-- Looking a link up after `SetTransform` on the link `ref`: that link carries the new
transform, every other link is as before. -/
theorem Space.findLink_setLinkTransform (s : Space) (ref ref1 : LinkRef) (t : Transform) :
    (s.setLinkTransform ref t).findLink ref1
      = (s.findLink ref1).map (fun l => if ref1 = ref then { l with transform := t } else l) := by
  unfold Space.findLink Space.setLinkTransform
  simp only
  rw [find?_map_of_preserved _ _ (by intro b; split <;> rfl)]
  cases hfind : s.bodies.find? (fun b => b.id == ref1.parent) with
  | none => rfl
  | some b =>
    have hbid : b.id = ref1.parent := by
      have := List.find?_some hfind
      simpa using this
    simp only [Option.map_some']
    by_cases hpar : ref1.parent = ref.parent
    · have hb : (b.id == ref.parent) = true := by simp [hbid, hpar]
      simp only [hb, if_true]
      rw [find?_map_of_preserved _ _ (by intro l; split <;> rfl)]
      cases hlink : b.links.find? (fun l => l.index == ref1.index) with
      | none => rfl
      | some l =>
        have hlidx : l.index = ref1.index := by
          have := List.find?_some hlink
          simpa using this
        simp only [Option.map_some', Option.some.injEq]
        by_cases hidx : ref1.index = ref.index
        · have href : ref1 = ref := by
            cases ref1; cases ref; simp_all
          simp [hlidx, hidx, href]
        · have href : ¬ ref1 = ref := fun h => hidx (by rw [h])
          simp [hlidx, hidx, href]
    · have hb : (b.id == ref.parent) = false := by simp [hbid, hpar]
      have href : ¬ ref1 = ref := fun h => hpar (by rw [h])
      simp only [hb, Bool.false_eq_true, if_false, href]
      cases b.links.find? (fun l => l.index == ref1.index) <;> simp

/-- `SetTransform` on a link touches no record and hence no mass-frame offset. -/
theorem Space.setLinkTransform_GetInfo (s : Space) (ref : LinkRef) (t : Transform) :
    (s.setLinkTransform ref t).GetInfo = s.GetInfo := rfl

/-- C12 (evaluation of the compiled code).  For every proxy, state and engine
transform, the compiled `SetWorldTransform` writes no pose: the call of `GetTransform`
in its argument ends without a value.  On the sample — proxy of link 0 of body 7, engine
transform with origin (1, 2, 3) — the link keeps the translation (3, 0, 0), where the
specified pose has the translation (1, 2, 3).  `GetWorldTransform` leaves the state as
it is. -/
theorem SetWorldTransform_writes_no_pose (compose : Transform → Transform → Transform)
    (inverse : Transform → Transform) (self : LINK) (s : Space) (t : MatrixNd) :
    LINK.SetWorldTransform compose inverse self s t = Except.error Failure.missingReturn
    ∧ (∀ s1, LINK.SetWorldTransform compose inverse self s t ≠ Except.ok s1)
    ∧ (staleSpace.findLink ⟨7, 0⟩).map (fun l => l.transform.trans) = some ⟨3, 0, 0, 0⟩
    ∧ (sampleCompose (GetTransform_disabled sampleEngineTransform)
        (sampleInverse sampleProxy.tlocal)).trans = ⟨1, 2, 3, 0⟩
    ∧ (LINK.GetWorldTransform compose self s).2 = s := by
  refine ⟨rfl, ?_, by decide, ?_, rfl⟩
  · intro s1; simp [LINK.SetWorldTransform, GetTransform, bind, Except.bind]
  · simp only [sampleCompose, sampleInverse, GetTransform_disabled, sampleEngineTransform,
      sampleProxy, Transform.identity]
    norm_num

/-- With the disabled body of `GetTransform` restored, `SetWorldTransform` would do what
C12 describes: the proxy's link receives `GetTransform(t) * tlocal.inverse()`, every
other link keeps its transform, and no record, hence no `tlocal`, changes. -/
theorem SetWorldTransform_restored_spec (compose : Transform → Transform → Transform)
    (inverse : Transform → Transform) (self : LINK) (s s1 : Space) (t : MatrixNd)
    (h : LINK.SetWorldTransform_restored compose inverse self s t = Except.ok s1) :
    ∃ ref, self.plink = some ref
      ∧ s1.findLink ref = (s.findLink ref).map (fun l =>
          { l with transform := compose (GetTransform_disabled t) (inverse self.tlocal) })
      ∧ (∀ ref1, ref1 ≠ ref → s1.findLink ref1 = s.findLink ref1)
      ∧ s1.GetInfo = s.GetInfo := by
  unfold LINK.SetWorldTransform_restored at h
  cases hp : self.plink with
  | none => simp [hp] at h
  | some ref =>
    simp only [hp, pure, Except.pure, Except.ok.injEq] at h
    subst h
    refine ⟨ref, rfl, ?_, ?_, rfl⟩
    · rw [Space.findLink_setLinkTransform]; simp
    · intro ref1 hne
      rw [Space.findLink_setLinkTransform]
      simp [hne]

/-- C14 (evaluation of the compiled code).  The sample engine transform has a unit
quaternion, yet for every proxy and state `SetWorldTransform` writes no pose and
`GetWorldTransform` hands back no transform at all, so writing and then reading does
not return the transform written. -/
theorem set_then_get_returns_nothing (compose : Transform → Transform → Transform)
    (inverse : Transform → Transform) (self : LINK) (s : Space) :
    (GetTransform_disabled sampleEngineTransform).rot.lengthsqr4 = 1
    ∧ LINK.SetWorldTransform compose inverse self s sampleEngineTransform
        = Except.error Failure.missingReturn
    ∧ (∀ m, (LINK.GetWorldTransform compose self s).1 ≠ Except.ok m)
    ∧ (LINK.GetWorldTransform sampleCompose sampleProxy staleSpace).1
        = Except.error Failure.missingReturn := by
  refine ⟨?_, rfl, ?_, by decide⟩
  · norm_num [GetTransform_disabled, sampleEngineTransform, Vector.lengthsqr4]
  · intro m
    unfold LINK.GetWorldTransform
    simp only
    split
    · simp
    · split
      · simp
      · simp [GetRavelinTransform]

/-- With the disabled bodies of both conversions restored, writing an engine transform
within the tolerance and reading it back would return it, provided the host's product
and inverse cancel on the pose written. -/
theorem set_then_get_restored (compose : Transform → Transform → Transform)
    (inverse : Transform → Transform) (self : LINK) (s : Space) (t : MatrixNd)
    (ref : LinkRef) (l : Link) (hp : self.plink = some ref) (hl : s.findLink ref = some l)
    (hcancel : compose (compose (GetTransform_disabled t) (inverse self.tlocal)) self.tlocal
      = GetTransform_disabled t)
    (ht : |(GetTransform_disabled t).rot.lengthsqr4 - 1| ≤ 1 / 100) :
    ∃ s1, LINK.SetWorldTransform_restored compose inverse self s t = Except.ok s1
      ∧ (LINK.GetWorldTransform_restored compose self s1).1 = Except.ok t := by
  refine ⟨s.setLinkTransform ref (compose (GetTransform_disabled t) (inverse self.tlocal)),
    by simp [LINK.SetWorldTransform_restored, hp, pure, Except.pure], ?_⟩
  unfold LINK.GetWorldTransform_restored
  simp only [hp, Space.findLink_setLinkTransform, hl, Option.map_some', if_true, hcancel]
  unfold GetRavelinTransform_disabled
  rw [if_pos ht]
  cases t; rfl

/-- The restored round trip on the sample, with the translation-only stand-ins. -/
theorem set_then_get_restored_sample :
    ∃ s1, LINK.SetWorldTransform_restored sampleCompose sampleInverse sampleProxy staleSpace
        sampleEngineTransform = Except.ok s1
      ∧ (LINK.GetWorldTransform_restored sampleCompose sampleProxy s1).1
        = Except.ok sampleEngineTransform :=
  set_then_get_restored sampleCompose sampleInverse sampleProxy staleSpace
    sampleEngineTransform ⟨7, 0⟩
    { parent := 7, index := 0, transform := ⟨⟨1, 0, 0, 0⟩, ⟨3, 0, 0, 0⟩⟩ }
    rfl (by decide)
    (by simp [sampleCompose, sampleInverse, GetTransform_disabled, sampleEngineTransform,
          sampleProxy, Transform.identity])
    (by norm_num [GetTransform_disabled, sampleEngineTransform, Vector.lengthsqr4])

/-! ## Theorems: the packed index pair -/

/-- With the smaller index below 2^16 the two parts of the key share no bit: the key is
the larger index times 2^16 plus the smaller index. -/
theorem adjacencyKey_eq_add (i0 i1 : Nat) (h : min i0 i1 < 2 ^ 16) :
    adjacencyKey i0 i1 = max i0 i1 * 2 ^ 16 + min i0 i1 := by
  unfold adjacencyKey
  rw [Nat.shiftLeft_eq, Nat.lor_comm, Nat.mul_comm, ← Nat.mul_add_lt_is_or h]

/-- The key does not depend on the order of the two indices, whatever their size. -/
theorem adjacencyKey_comm (i0 i1 : Nat) : adjacencyKey i0 i1 = adjacencyKey i1 i0 := by
  unfold adjacencyKey
  rw [Nat.min_comm, Nat.max_comm]

/-- C15.  The key `min | (max << 16)` is the same for either order of the two indices;
for indices below 2^16 two pairs have the same key, as a number and as the 32 bits an
`int` holds, only if they are the same unordered pair; and with an index of 2^16 or
more distinct pairs collide: (65536, 65537) and (0, 65537) have the same key. -/
theorem adjacencyKey_order_and_injective (i j k l : Nat)
    (hi : i < 2 ^ 16) (hj : j < 2 ^ 16) (hk : k < 2 ^ 16) (hl : l < 2 ^ 16) :
    (∀ a b, adjacencyKey a b = adjacencyKey b a ∧ adjacencyKey32 a b = adjacencyKey32 b a)
    ∧ (adjacencyKey i j = adjacencyKey k l → (i = k ∧ j = l) ∨ (i = l ∧ j = k))
    ∧ (adjacencyKey32 i j = adjacencyKey32 k l → (i = k ∧ j = l) ∨ (i = l ∧ j = k))
    ∧ (adjacencyKey 65536 65537 = adjacencyKey 0 65537
        ∧ adjacencyKey32 65536 65537 = adjacencyKey32 0 65537
        ∧ ¬ ((65536 = 0 ∧ 65537 = 65537) ∨ (65536 = 65537 ∧ 65537 = 0))) := by
  have hmin1 : min i j < 2 ^ 16 := lt_of_le_of_lt (Nat.min_le_left i j) hi
  have hmin2 : min k l < 2 ^ 16 := lt_of_le_of_lt (Nat.min_le_left k l) hk
  have hmax1 : max i j < 2 ^ 16 := max_lt hi hj
  have hmax2 : max k l < 2 ^ 16 := max_lt hk hl
  have e1 := adjacencyKey_eq_add i j hmin1
  have e2 := adjacencyKey_eq_add k l hmin2
  have hplain : adjacencyKey i j = adjacencyKey k l → (i = k ∧ j = l) ∨ (i = l ∧ j = k) := by
    intro h
    rw [e1, e2] at h
    omega
  have small1 : adjacencyKey i j < 2 ^ 32 := by rw [e1]; omega
  have small2 : adjacencyKey k l < 2 ^ 32 := by rw [e2]; omega
  refine ⟨?_, hplain, ?_, ?_⟩
  · intro a b
    exact ⟨adjacencyKey_comm a b, by unfold adjacencyKey32; rw [adjacencyKey_comm]⟩
  · intro h
    unfold adjacencyKey32 at h
    rw [Nat.mod_eq_of_lt small1, Nat.mod_eq_of_lt small2] at h
    exact hplain h
  · refine ⟨by decide, by decide, by decide⟩

/-- C15, at concrete indices: the pairs (1, 2) and (2, 1). -/
theorem adjacencyKey_order_and_injective_witness :
    (∀ a b, adjacencyKey a b = adjacencyKey b a ∧ adjacencyKey32 a b = adjacencyKey32 b a)
    ∧ (adjacencyKey 1 2 = adjacencyKey 2 1 → (1 = 2 ∧ 2 = 1) ∨ (1 = 1 ∧ 2 = 2))
    ∧ (adjacencyKey32 1 2 = adjacencyKey32 2 1 → (1 = 2 ∧ 2 = 1) ∨ (1 = 1 ∧ 2 = 2))
    ∧ (adjacencyKey 65536 65537 = adjacencyKey 0 65537
        ∧ adjacencyKey32 65536 65537 = adjacencyKey32 0 65537
        ∧ ¬ ((65536 = 0 ∧ 65537 = 65537) ∨ (65536 = 65537 ∧ 65537 = 0))) :=
  adjacencyKey_order_and_injective 1 2 2 1 (by decide) (by decide) (by decide) (by decide)

/-- The key of the sample pair, evaluated: links 0 and 1 pack to 65536. -/
theorem adjacencyKey_sample : adjacencyKey 0 1 = 65536 ∧ adjacencyKey 1 0 = 65536 := by
  decide

/-- At 2^16 the 32 bits of an `int` lose the larger index altogether: the pair
(0, 65536) has the key of the pair (0, 0). -/
theorem adjacencyKey32_wraps : adjacencyKey32 0 65536 = adjacencyKey32 0 0 := by
  decide

end MobySpace
